import Mathlib

/-!
Verification development for the PhotoManager core pipeline
(src/photomanager_core.py).

The Python module is shallowly embedded: pure helpers become Lean
functions; the mutable per-day counters dictionary becomes an explicit
function value `String -> Nat` that is threaded through the loop; the
filesystem state of the destination directory becomes an explicit list of
the file names currently present there; Python exceptions arising in
external library calls (Pillow image decoding and saving) are modelled by
per-file oracle fields describing whether the call raises, and Python
standard-library services used by the code (datetime.fromisoformat and
str.format) are modelled as explicit functional parameters returning
Option, where none models the call raising an exception.
-/

/-! ### Decimal rendering (models CPython integer-to-decimal formatting) -/

/-- Big-endian decimal digit characters of a positive number, written with
explicit structural fuel: `toDecAux fuel n` is correct whenever `n ≤ fuel`. -/
def toDecAux : Nat → Nat → List Char
  | 0, _ => []
  | _ + 1, 0 => []
  | fuel + 1, n + 1 => toDecAux fuel ((n + 1) / 10) ++ [Nat.digitChar ((n + 1) % 10)]

/-- Decimal digit characters of `n`, with `0` rendered as the single digit 0,
as Python renders integers. -/
def decChars (n : Nat) : List Char :=
  if n = 0 then ['0'] else toDecAux n n

/-- Zero-padding to a minimum width, as the Python format specifier 0Nd
renders an integer: the decimal digits of `n` left-padded with 0 up to
width `w`. -/
def padZero (w n : Nat) : String :=
  ⟨List.replicate (w - (decChars n).length) '0' ++ decChars n⟩

/-- Three-digit zero padding, modelling the 03d format specifier used by
`unique_path` and by the fallback name of `_build_base_name`. -/
def pad3 (n : Nat) : String :=
  padZero 3 n

/-- Decimal value of a digit-character string, used to show that zero-padded
decimal rendering is injective. -/
def valChars (l : List Char) : Nat :=
  l.foldl (fun a c => a * 10 + (c.toNat - 48)) 0

/-! ### Path Allocator: unique_path (photomanager_core.py lines 116-131)

The destination directory is modelled as the list of file names currently
present in it.  `candidate base ext i` is the name the Python loop checks
at step `i`: the bare `base ++ ext` first, then `base_001`, `base_002`
and so on with a three-digit zero-padded suffix.  The unbounded Python
`while True` loop is embedded with explicit fuel `existing.length + 1`;
the termination theorem shows this fuel always suffices, so the embedded
function never returns `none`. -/

def candidate (base ext : String) : Nat → String
  | 0 => base ++ ext
  | i + 1 => base ++ "_" ++ pad3 (i + 1) ++ ext

def uniqueLoop (existing : List String) (base ext : String) : Nat → Nat → Option String
  | _, 0 => none
  | i, fuel + 1 =>
    let c := candidate base ext i
    if c ∈ existing then uniqueLoop existing base ext (i + 1) fuel else some c

/-- Embedding of `unique_path`: first unused name among the candidates, in
the order the Python loop checks them. -/
def unique_path (existing : List String) (base ext : String) : Option String :=
  uniqueLoop existing base ext 0 (existing.length + 1)

/-! ### Dates and the Timestamp Resolver (photomanager_core.py lines 46-61)

A resolved date is modelled by its calendar fields; time-of-day fields are
omitted because nothing in the naming pipeline reads them.  The strftime
call with the pattern consisting of the directives for year, month and day
is embedded as zero-padded decimal rendering of the three fields.

The EXIF dictionary returned by `img.getexif()` is modelled as the list of
its items in iteration order, each item carrying the tag name resolved
through `ExifTags.TAGS` and the tag value, which is either a Python string
or some non-string value.  `datetime.fromisoformat` is Python library code
and is modelled as an explicit parse parameter returning `Option DT`,
where `none` models the call raising `ValueError`; `src.stat().st_mtime`
is modelled as an `Option DT` that is `none` when the stat call raises. -/

structure DT where
  year : Nat
  month : Nat
  day : Nat
deriving DecidableEq

/-- The day key `dt.strftime` with the year-month-day pattern produces:
four-digit year, two-digit month, two-digit day, all zero-padded. -/
def strftime8 (dt : DT) : String :=
  padZero 4 dt.year ++ padZero 2 dt.month ++ padZero 2 dt.day

inductive ExifVal where
  | str (s : String)
  | nonStr
deriving DecidableEq

/-- The scan of `exif.items()`: the value of the first item whose resolved
tag name is DateTimeOriginal and whose value is a string.  Items after a
matching one are never consulted, exactly as the Python loop returns from
inside its body. -/
def findDTO : List (String × ExifVal) → Option String
  | [] => none
  | (tag, ExifVal.str s) :: rest =>
    if tag = "DateTimeOriginal" then some s else findDTO rest
  | (_, ExifVal.nonStr) :: rest => findDTO rest

/-- `v.replace` of colon by dash limited to `k` occurrences, as used to turn
the EXIF date separator into the ISO one. -/
def replaceColons : Nat → List Char → List Char
  | _, [] => []
  | 0, l => l
  | k + 1, c :: rest =>
    if c = ':' then '-' :: replaceColons k rest else c :: replaceColons (k + 1) rest

/-- The argument handed to `datetime.fromisoformat`: the raw EXIF string with
its first two colons replaced by dashes. -/
def isoFix (s : String) : String :=
  ⟨replaceColons 2 s.data⟩

/-- Embedding of `exif_datetime`: EXIF capture time if present and parseable,
else file modification time, else the current wall-clock time `now`.
A parse failure inside the try block aborts the scan and falls through to
the modification-time step, exactly as the raised `ValueError` is caught
by the enclosing except clause. -/
def exif_datetime (parse : String → Option DT) (meta : List (String × ExifVal))
    (mtime : Option DT) (now : DT) : DT :=
  match findDTO meta with
  | some s =>
    match parse (isoFix s) with
    | some d => d
    | none =>
      match mtime with
      | some m => m
      | none => now
  | none =>
    match mtime with
    | some m => m
    | none => now

/-! ### Colour-mode normalisation (photomanager_core.py lines 64-68) -/

/-- Embedding of `ensure_rgb`: the Pillow mode string is converted to RGB
exactly when it is one of the four modes in the tuple the source tests. -/
def ensure_rgb (mode : String) : String :=
  if mode = "RGBA" ∨ mode = "LA" ∨ mode = "P" ∨ mode = "CMYK" then "RGB" else mode

/-- Pillow image modes that carry an alpha channel. -/
def alphaModes : List String :=
  ["RGBA", "LA", "PA", "RGBa", "La"]

/-- Pillow image modes that are palette-based. -/
def paletteModes : List String :=
  ["P", "PA"]

/-- The image modes `PIL.Image.open` can yield for files of the supported
extension set (JPEG, PNG, BMP, TIFF, WEBP): the limited-support modes PA,
RGBa and La are only ever produced by explicit conversion, never by
decoding one of these formats. -/
def openableModes : List String :=
  ["1", "L", "LA", "I", "F", "P", "RGB", "RGBA", "CMYK", "YCbCr"]

/-! ### Output extension mapping (photomanager_core.py lines 163-167)

Python str.upper and str.lower are modelled character-wise with the ASCII
case maps; format identifiers are ASCII strings, on which the Python
Unicode case maps agree with the ASCII ones. -/

def strUpper (s : String) : String :=
  ⟨s.data.map Char.toUpper⟩

def strLower (s : String) : String :=
  ⟨s.data.map Char.toLower⟩

/-- Embedding of the extension computation of `process_images`: the
configured format is upper-cased; JPEG maps to the jpg extension and any
other format maps to a dot followed by its lower-cased name. -/
def outputExt (fmtRaw : String) : String :=
  let fmt := strUpper fmtRaw
  if fmt = "JPEG" then ".jpg" else "." ++ strLower fmt

/-! ### Configuration and the Name Builder (photomanager_core.py lines 24-43, 88-113)

`PhotoConfig` mirrors the dataclass; the two directory fields are carried
as the directory names the pipeline actually reads (`src_dir.name` is the
batch folder name substituted for the folder placeholder).  The rename
pattern is rendered by Python `str.format`, which is standard-library
code: it is modelled as an explicit render parameter producing
`Option String`, where `none` models the call raising (unknown
placeholder, malformed template).  The per-day counters dictionary is
modelled as a total function from day keys to counts, zero standing for
an absent key, so the `setdefault` to zero followed by the increment
becomes a single pointwise update. -/

structure PhotoConfig where
  source_dir_name : String
  dest_dir_name : String
  max_width : Nat
  max_height : Nat
  quality : Nat
  strip_metadata : Bool
  recursive : Bool
  rename_pattern : String
  output_format : String

/-- The substitution context built for the rename pattern. -/
structure Ctx where
  folder : String
  date : String
  counter : Nat
  orig : String

/-- Model of Python `str.format` applied to a template with this context:
`none` models a raised exception. -/
def RenderFn : Type :=
  String → Ctx → Option String

/-- The fixed fallback naming scheme of `_build_base_name`: folder name,
day key and three-digit zero-padded counter joined by underscores. -/
def fallbackName (parent day : String) (c : Nat) : String :=
  parent ++ "_" ++ day ++ "_" ++ pad3 c

/-- Embedding of `_build_base_name`.  It returns the chosen base name
together with the updated counters: the counter for the file's day key is
incremented before use, the user pattern is tried first, and any render
failure or empty rendering falls back to `fallbackName`. -/
def _build_base_name (render : RenderFn) (config : PhotoConfig) (srcStem : String)
    (parent_name : String) (counters : String → Nat) (dt : DT) :
    String × (String → Nat) :=
  let day_key := strftime8 dt
  let counters' := fun k => if k = day_key then counters day_key + 1 else counters k
  let ctx : Ctx := ⟨parent_name, day_key, counters' day_key, srcStem⟩
  let name :=
    match render config.rename_pattern ctx with
    | some base => if base = "" then fallbackName parent_name day_key (counters' day_key) else base
    | none => fallbackName parent_name day_key (counters' day_key)
  (name, counters')

/-! ### Batch Orchestrator: process_images (photomanager_core.py lines 134-208)

Each source file carries, next to its path, stem, EXIF items and
modification time, an oracle describing the two places where the per-file
pipeline can raise: `preNameError` is the message of an exception raised
while opening the file or applying the orientation correction (before the
name builder runs), and `postNameError` is the message of an exception
raised while converting, resizing or saving (after the name builder ran
but before the output file appears on disk).  The color-mode and resize
steps only change pixel data, which nothing in the naming or counting
logic reads, so they surface in the model only through `postNameError`. -/

structure SrcFile where
  path : String
  stem : String
  meta : List (String × ExifVal)
  mtime : Option DT
  preNameError : Option String
  postNameError : Option String

/-- The log line the except clause prints for a failed file. -/
def errLog (path msg : String) : String :=
  "[ERREUR] " ++ path ++ ": " ++ msg

/-- The state produced by processing one file: updated counters, updated
destination directory contents, the log entry if the file failed, and the
day-key with counter value consumed by the name builder if it ran. -/
structure StepOut where
  counters : String → Nat
  dest : List String
  log : Option String
  naming : Option (String × Nat)

/-- One iteration of the processing loop, covering the try block and the
except clause of the source: a pre-naming failure leaves both the counters
and the destination untouched; a post-naming failure keeps the counter
consumption but creates no file; on success the allocated output name is
added to the destination directory. -/
def processOne (render : RenderFn) (parse : String → Option DT) (config : PhotoConfig)
    (parentName ext : String) (now : DT) (f : SrcFile)
    (counters : String → Nat) (dest : List String) : StepOut :=
  match f.preNameError with
  | some e => ⟨counters, dest, some (errLog f.path e), none⟩
  | none =>
    let dt := exif_datetime parse f.meta f.mtime now
    let dayKey := strftime8 dt
    let nb := _build_base_name render config f.stem parentName counters dt
    match f.postNameError with
    | some e => ⟨nb.2, dest, some (errLog f.path e), some (dayKey, nb.2 dayKey)⟩
    | none =>
      let out := (unique_path dest nb.1 ext).getD (nb.1 ++ ext)
      ⟨nb.2, out :: dest, none, some (dayKey, nb.2 dayKey)⟩

def consOpt {α : Type} : Option α → List α → List α
  | some a, l => a :: l
  | none, l => l

/-- Aggregate state of the whole loop: the final value of the processed
counter, the arguments of the progress callback invocations in call
order, the printed error log lines in print order, the day-key/counter
pairs consumed by the name builder in consumption order, and the final
counters and destination directory contents. -/
structure LoopOut where
  count : Nat
  progress : List (Nat × Nat)
  logs : List String
  trace : List (String × Nat)
  counters : String → Nat
  dest : List String

/-- The for loop of `process_images`: after every file, failed or not, the
processed counter is incremented and the progress callback is invoked
with the processed count so far and the total. -/
def processLoop (render : RenderFn) (parse : String → Option DT) (config : PhotoConfig)
    (parentName ext : String) (now : DT) (total : Nat) :
    List SrcFile → (String → Nat) → List String → Nat → LoopOut
  | [], counters, dest, processed => ⟨processed, [], [], [], counters, dest⟩
  | f :: rest, counters, dest, processed =>
    let s := processOne render parse config parentName ext now f counters dest
    let r := processLoop render parse config parentName ext now total rest s.counters s.dest
      (processed + 1)
    ⟨r.count, (processed + 1, total) :: r.progress, consOpt s.log r.logs,
      consOpt s.naming r.trace, r.counters, r.dest⟩

/-- The observable outcome of a batch run; `finalCounters` is `none` when
the early return for an empty file list fires, before the counters
dictionary is ever created. -/
structure ProcessResult where
  count : Nat
  progress : List (Nat × Nat)
  logs : List String
  trace : List (String × Nat)
  finalCounters : Option (String → Nat)
  dest : List String

/-- Embedding of `process_images` on an already materialised file list
(an explicit list argument and a discovered one are processed
identically once materialised): empty lists return zero before any
counter exists or any callback fires; otherwise the loop runs with fresh
counters over the whole list. -/
def process_images (render : RenderFn) (parse : String → Option DT) (config : PhotoConfig)
    (files : List SrcFile) (dest0 : List String) (now : DT) : ProcessResult :=
  if files.length = 0 then ⟨0, [], [], [], none, dest0⟩
  else
    let r := processLoop render parse config config.source_dir_name
      (outputExt config.output_format) now files.length files (fun _ => 0) dest0 0
    ⟨r.count, r.progress, r.logs, r.trace, some r.counters, r.dest⟩

/-- The log entry `process_images` produces for a given file, determined by
the first pipeline stage that raises. -/
def fileLog (f : SrcFile) : Option String :=
  match f.preNameError with
  | some e => some (errLog f.path e)
  | none => f.postNameError.map (errLog f.path)

/-- Sample configuration used to instantiate the claim theorems on concrete
inputs. -/
def sampleConfig : PhotoConfig :=
  ⟨"photos", "out", 800, 600, 70, false, true, "x", "JPEG"⟩

/-- A sample file whose opening raises, as a corrupt image does. -/
def sampleBadFile : SrcFile :=
  ⟨"photos/corrupt.jpg", "corrupt", [], none, some "cannot identify image file", none⟩

/-! ### General lemmas -/

theorem digitChar_toNat_sub : ∀ r, r < 10 → (Nat.digitChar r).toNat - 48 = r := by
  decide


theorem foldl_toDecAux (fuel : Nat) :
    ∀ n a, n ≤ fuel →
      List.foldl (fun a c => a * 10 + (c.toNat - 48)) a (toDecAux fuel n)
        = a * 10 ^ (toDecAux fuel n).length + n := by
  induction fuel with
  | zero =>
    intro n a h
    interval_cases n
    simp [toDecAux]
  | succ fuel ih =>
    intro n a h
    match n with
    | 0 => simp [toDecAux]
    | m + 1 =>
      rw [toDecAux, List.foldl_append]
      have hq : (m + 1) / 10 ≤ fuel := by
        have := Nat.div_lt_self (Nat.succ_pos m) (by norm_num : 1 < 10)
        omega
      rw [ih ((m + 1) / 10) a hq]
      have hr : ((m + 1) % 10) < 10 := Nat.mod_lt _ (by norm_num)
      simp only [List.foldl_cons, List.foldl_nil, digitChar_toNat_sub _ hr]
      rw [List.length_append, List.length_singleton, pow_succ]
      have hdm : 10 * ((m + 1) / 10) + (m + 1) % 10 = m + 1 := Nat.div_add_mod (m + 1) 10
      ring_nf
      omega


theorem valChars_decChars (n : Nat) : valChars (decChars n) = n := by
  by_cases h : n = 0
  · subst h
    decide
  · rw [decChars, if_neg h]
    have := foldl_toDecAux n n 0 (le_refl n)
    simpa [valChars] using this


theorem valChars_replicate_zero_append (k : Nat) (l : List Char) :
    valChars (List.replicate k '0' ++ l) = valChars l := by
  have main : ∀ k, List.foldl (fun a c => a * 10 + (c.toNat - 48)) 0 (List.replicate k '0') = 0 := by
    intro k
    induction k with
    | zero => rfl
    | succ k ih => simpa [List.replicate_succ'] using ih
  rw [valChars, List.foldl_append, main k]
  rfl


theorem valChars_padZero (w n : Nat) : valChars (padZero w n).data = n := by
  show valChars (List.replicate (w - (decChars n).length) '0' ++ decChars n) = n
  rw [valChars_replicate_zero_append, valChars_decChars]


theorem padZero_inj (w : Nat) : Function.Injective (padZero w) := by
  intro a b h
  have := valChars_padZero w a
  rw [h, valChars_padZero] at this
  omega


theorem candidate_inj (base ext : String) : Function.Injective (candidate base ext) := by
  intro i j h
  cases i with
  | zero =>
    cases j with
    | zero => rfl
    | succ j =>
      exfalso
      have hd := congrArg String.data h
      simp only [candidate, String.data_append, List.append_assoc,
        List.singleton_append] at hd
      have hl := congrArg List.length hd
      simp only [List.length_append, List.length_cons] at hl
      omega
  | succ i =>
    cases j with
    | zero =>
      exfalso
      have hd := congrArg String.data h
      simp only [candidate, String.data_append, List.append_assoc,
        List.singleton_append] at hd
      have hl := congrArg List.length hd
      simp only [List.length_append, List.length_cons] at hl
      omega
    | succ j =>
      have hd := congrArg String.data h
      simp only [candidate, String.data_append, List.append_assoc,
        List.singleton_append] at hd
      have hd2 := List.append_cancel_left hd
      injection hd2 with _ hd3
      have hd4 : (padZero 3 (i + 1)).data = (padZero 3 (j + 1)).data :=
        List.append_cancel_right hd3
      have hv := valChars_padZero 3 (i + 1)
      rw [hd4, valChars_padZero] at hv
      omega


theorem exists_free_candidate (existing : List String) (base ext : String) (i : Nat) :
    ∃ j, j ≤ existing.length ∧ candidate base ext (i + j) ∉ existing := by
  by_contra hall
  push_neg at hall
  have hsub : (List.range (existing.length + 1)).map (fun j => candidate base ext (i + j))
      ⊆ existing := by
    intro x hx
    rcases List.mem_map.mp hx with ⟨j, hj, rfl⟩
    exact hall j (Nat.lt_succ_iff.mp (List.mem_range.mp hj))
  have hinj : Function.Injective (fun j => candidate base ext (i + j)) := by
    intro a b hab
    have := candidate_inj base ext hab
    omega
  have hnd : ((List.range (existing.length + 1)).map
      (fun j => candidate base ext (i + j))).Nodup :=
    (List.nodup_range _).map hinj
  have hle := (hnd.subperm hsub).length_le
  simp only [List.length_map, List.length_range] at hle
  omega


theorem uniqueLoop_isSome (existing : List String) (base ext : String) :
    ∀ fuel i, (∃ j, j < fuel ∧ candidate base ext (i + j) ∉ existing) →
      (uniqueLoop existing base ext i fuel).isSome = true := by
  intro fuel
  induction fuel with
  | zero =>
    intro i ⟨j, hj, _⟩
    omega
  | succ fuel ih =>
    intro i ⟨j, hj, hfree⟩
    rw [uniqueLoop]
    by_cases hmem : candidate base ext i ∈ existing
    · simp only [hmem, if_true]
      have hj0 : j ≠ 0 := by
        rintro rfl
        simp at hfree
        exact hfree hmem
      refine ih (i + 1) ⟨j - 1, by omega, ?_⟩
      have : i + 1 + (j - 1) = i + j := by omega
      rw [this]
      exact hfree
    · simp [hmem]


/-- The first-fit characterisation of the loop: a returned name is the
candidate at the least free index at or after the starting index. -/
theorem uniqueLoop_spec (existing : List String) (base ext : String) :
    ∀ fuel i c, uniqueLoop existing base ext i fuel = some c →
      ∃ k, c = candidate base ext (i + k) ∧ candidate base ext (i + k) ∉ existing
        ∧ ∀ j, j < k → candidate base ext (i + j) ∈ existing := by
  intro fuel
  induction fuel with
  | zero =>
    intro i c hc
    simp [uniqueLoop] at hc
  | succ fuel ih =>
    intro i c hc
    rw [uniqueLoop] at hc
    by_cases hmem : candidate base ext i ∈ existing
    · simp only [hmem, if_true] at hc
      rcases ih (i + 1) c hc with ⟨k, hck, hfree, hmin⟩
      refine ⟨k + 1, by simpa [Nat.add_assoc, Nat.add_comm 1 k] using hck,
        by simpa [Nat.add_assoc, Nat.add_comm 1 k] using hfree, ?_⟩
      intro j hj
      match j with
      | 0 => simpa using hmem
      | j + 1 =>
        have := hmin j (by omega)
        simpa [Nat.add_assoc, Nat.add_comm 1 j] using this
    · simp only [hmem, if_false] at hc
      exact ⟨0, by simpa using hc.symm, by simpa using hmem, by omega⟩


theorem toNat_ofNatAux (n : Nat) (h : n.isValidChar) : (Char.ofNatAux n h).toNat = n := rfl


theorem toNat_ofNat_valid (n : Nat) (h : n.isValidChar) : (Char.ofNat n).toNat = n := by
  unfold Char.ofNat
  rw [dif_pos h]
  rfl


theorem toLower_toUpper (c : Char) : c.toUpper.toLower = c.toLower := by
  unfold Char.toUpper Char.toLower
  by_cases h : c.toNat >= 97 ∧ c.toNat <= 122
  · rw [if_pos h]
    have hv : (c.toNat - 32).isValidChar := by
      left
      omega
    have h1 : (Char.ofNat (c.toNat - 32)).toNat = c.toNat - 32 := toNat_ofNat_valid _ hv
    rw [h1]
    rw [if_pos (by omega : c.toNat - 32 ≥ 65 ∧ c.toNat - 32 ≤ 90)]
    rw [if_neg (by omega : ¬(c.toNat ≥ 65 ∧ c.toNat ≤ 90))]
    have h4 : c.toNat - 32 + 32 = c.toNat := by omega
    rw [h4, Char.ofNat_toNat]
  · rw [if_neg h]


theorem strLower_strUpper (s : String) : strLower (strUpper s) = strLower s := by
  show (⟨(s.data.map Char.toUpper).map Char.toLower⟩ : String) = ⟨s.data.map Char.toLower⟩
  rw [List.map_map]
  congr 1
  exact List.map_congr_left (fun c _ => toLower_toUpper c)

theorem processOne_log (render : RenderFn) (parse : String → Option DT) (config : PhotoConfig)
    (parentName ext : String) (now : DT) (f : SrcFile)
    (counters : String → Nat) (dest : List String) :
    (processOne render parse config parentName ext now f counters dest).log = fileLog f := by
  cases hpre : f.preNameError <;> cases hpost : f.postNameError <;>
    simp [processOne, fileLog, hpre, hpost]

theorem processLoop_count (render : RenderFn) (parse : String → Option DT) (config : PhotoConfig)
    (parentName ext : String) (now : DT) (total : Nat) :
    ∀ (files : List SrcFile) (counters : String → Nat) (dest : List String) (processed : Nat),
      (processLoop render parse config parentName ext now total files counters dest processed).count
        = processed + files.length := by
  intro files
  induction files with
  | nil =>
    intro counters dest processed
    simp [processLoop]
  | cons f rest ih =>
    intro counters dest processed
    simp only [processLoop, ih, List.length_cons]
    omega

theorem processLoop_progress (render : RenderFn) (parse : String → Option DT)
    (config : PhotoConfig) (parentName ext : String) (now : DT) (total : Nat) :
    ∀ (files : List SrcFile) (counters : String → Nat) (dest : List String) (processed : Nat),
      (processLoop render parse config parentName ext now total files counters dest
          processed).progress
        = (List.range files.length).map (fun i => (processed + i + 1, total)) := by
  intro files
  induction files with
  | nil =>
    intro counters dest processed
    simp [processLoop]
  | cons f rest ih =>
    intro counters dest processed
    simp only [processLoop, ih, List.length_cons, List.range_succ_eq_map, List.map_cons,
      List.map_map]
    have h1 : processed + 0 + 1 = processed + 1 := by omega
    rw [h1]
    congr 1
    exact List.map_congr_left (fun a _ => by
      simp only [Function.comp_apply, Prod.mk.injEq, Nat.succ_eq_add_one, eq_self_iff_true,
        and_true]
      omega)

theorem processLoop_logs (render : RenderFn) (parse : String → Option DT) (config : PhotoConfig)
    (parentName ext : String) (now : DT) (total : Nat) :
    ∀ (files : List SrcFile) (counters : String → Nat) (dest : List String) (processed : Nat),
      (processLoop render parse config parentName ext now total files counters dest
          processed).logs
        = files.filterMap fileLog := by
  intro files
  induction files with
  | nil =>
    intro counters dest processed
    simp [processLoop]
  | cons f rest ih =>
    intro counters dest processed
    simp only [processLoop, ih, List.filterMap_cons, processOne_log]
    cases hl : fileLog f <;> simp [consOpt, hl]

theorem processLoop_trace_cons (render : RenderFn) (parse : String → Option DT)
    (config : PhotoConfig) (parentName ext : String) (now : DT) (total : Nat)
    (f : SrcFile) (rest : List SrcFile) (counters : String → Nat) (dest : List String)
    (processed : Nat) (hpre : f.preNameError = none) :
    (processLoop render parse config parentName ext now total (f :: rest) counters dest
        processed).trace
      = (strftime8 (exif_datetime parse f.meta f.mtime now),
          counters (strftime8 (exif_datetime parse f.meta f.mtime now)) + 1)
        :: (processLoop render parse config parentName ext now total rest
            (fun k => if k = strftime8 (exif_datetime parse f.meta f.mtime now)
              then counters (strftime8 (exif_datetime parse f.meta f.mtime now)) + 1
              else counters k)
            ((processOne render parse config parentName ext now f counters dest).dest)
            (processed + 1)).trace := by
  cases hpost : f.postNameError <;>
    simp [processLoop, processOne, hpre, hpost, consOpt, _build_base_name]

theorem processLoop_trace_day (render : RenderFn) (parse : String → Option DT)
    (config : PhotoConfig) (parentName ext : String) (now : DT) (total : Nat) (d : String) :
    ∀ (files : List SrcFile) (counters : String → Nat) (dest : List String) (processed : Nat),
      ∃ n, (((processLoop render parse config parentName ext now total files counters dest
            processed).trace.filter (fun p => p.1 = d)).map Prod.snd)
          = List.range' (counters d + 1) n := by
  intro files
  induction files with
  | nil =>
    intro counters dest processed
    exact ⟨0, by simp [processLoop]⟩
  | cons f rest ih =>
    intro counters dest processed
    cases hpre : f.preNameError with
    | some e =>
      rcases ih counters dest (processed + 1) with ⟨n, hn⟩
      refine ⟨n, ?_⟩
      simpa only [processLoop, processOne, hpre, consOpt] using hn
    | none =>
      have hstep := processLoop_trace_cons render parse config parentName ext now total f rest
        counters dest processed hpre
      rcases ih (fun k => if k = strftime8 (exif_datetime parse f.meta f.mtime now)
            then counters (strftime8 (exif_datetime parse f.meta f.mtime now)) + 1
            else counters k)
          ((processOne render parse config parentName ext now f counters dest).dest)
          (processed + 1) with ⟨n, hn⟩
      by_cases hd : strftime8 (exif_datetime parse f.meta f.mtime now) = d
      · subst hd
        refine ⟨n + 1, ?_⟩
        rw [hstep, List.filter_cons_of_pos (by simp), List.map_cons, List.range'_succ]
        congr 1
        simpa using hn
      · refine ⟨n, ?_⟩
        have hd2 : ¬(d = strftime8 (exif_datetime parse f.meta f.mtime now)) :=
          fun h => hd h.symm
        rw [hstep, List.filter_cons_of_neg (by simp [hd])]
        simpa [hd2] using hn

theorem fallbackName_ne_empty (parent day : String) (c : Nat) :
    fallbackName parent day c ≠ "" := by
  intro h
  have hl := congrArg String.length h
  simp only [fallbackName, String.length_append] at hl
  have h1 : ("_" : String).length = 1 := rfl
  have h2 : ("" : String).length = 0 := rfl
  rw [h1, h2] at hl
  omega

/-! ### Claim theorems -/

/-- C7: the path allocator terminates for every input: in a destination
directory holding finitely many names, the loop that increments the
three-digit zero-padded suffix reaches an unused name within
`existing.length + 1` probes, so the embedded loop, run with exactly that
much fuel, always returns a name. -/
theorem unique_path_terminates (existing : List String) (base ext : String) :
    (unique_path existing base ext).isSome = true := by
  rcases exists_free_candidate existing base ext 0 with ⟨j, hj, hfree⟩
  exact uniqueLoop_isSome existing base ext (existing.length + 1) 0 ⟨j, by omega, hfree⟩

/-- C6 (amended): the allocator returns a name absent from the directory,
trying the bare name first and then the three-digit suffixes in increasing
order, every candidate before the returned one being taken; it is a pure
function of the directory state, so two calls with the same arguments and
unchanged state agree; and provided neither the bare name nor the first
suffixed name pre-exists, the call made after creating the first returned
path returns the name with suffix 001. -/
theorem unique_path_spec (existing : List String) (base ext : String) :
    (∀ c, unique_path existing base ext = some c →
        c ∉ existing
          ∧ ∃ k, c = candidate base ext k ∧ ∀ j, j < k → candidate base ext j ∈ existing)
    ∧ (candidate base ext 0 ∉ existing → candidate base ext 1 ∉ existing →
        unique_path existing base ext = some (candidate base ext 0)
          ∧ unique_path (candidate base ext 0 :: existing) base ext
              = some (candidate base ext 1)) := by
  constructor
  · intro c hc
    rcases uniqueLoop_spec existing base ext _ 0 c hc with ⟨k, hck, hfree, hmin⟩
    rw [Nat.zero_add] at hck hfree
    refine ⟨by rw [hck]; exact hfree, k, hck, ?_⟩
    intro j hj
    have := hmin j hj
    rwa [Nat.zero_add] at this
  · intro h0 h1
    have first : unique_path existing base ext = some (candidate base ext 0) := by
      rw [unique_path, uniqueLoop]
      simp [h0]
    refine ⟨first, ?_⟩
    have hm0 : candidate base ext 0 ∈ candidate base ext 0 :: existing :=
      List.mem_cons_self _ _
    have hm1 : candidate base ext 1 ∉ candidate base ext 0 :: existing := by
      intro hmem
      rcases List.mem_cons.mp hmem with h | h
      · have := candidate_inj base ext h
        omega
      · exact h1 h
    rw [unique_path, List.length_cons, uniqueLoop]
    simp only [hm0, if_true]
    rw [uniqueLoop]
    simp [hm1]

/-- C6 witness: on an empty destination directory the allocator returns the
bare name, and called again after that name is created it returns the
001-suffixed name. -/
theorem unique_path_spec_witness :
    unique_path [] "a" ".jpg" = some (candidate "a" ".jpg" 0)
      ∧ unique_path [candidate "a" ".jpg" 0] "a" ".jpg" = some (candidate "a" ".jpg" 1) :=
  (unique_path_spec [] "a" ".jpg").2 (by simp) (by simp)

/-- C6 counterexample: the claim quantifies over every directory state, but
its final conjunct fails when the 001-suffixed name already exists: the
call made after creating the first returned path then returns the
002-suffixed name. -/
theorem unique_path_claim_counterexample :
    unique_path ["a_001.jpg"] "a" ".jpg" = some "a.jpg"
      ∧ unique_path ["a.jpg", "a_001.jpg"] "a" ".jpg" = some "a_002.jpg"
      ∧ ("a_002.jpg" : String) ≠ "a_001.jpg" :=
  ⟨by decide, by decide, by decide⟩

/-- C8 counterexample: the claim's literal mapping fails on format strings
naming JPEG in a different case: the lower-case format string jpeg is
mapped to the jpg extension, not to a dot followed by its own lowercase
form. -/
theorem outputExt_claim_counterexample :
    outputExt "jpeg" = ".jpg" ∧ ("jpeg" : String) ≠ "JPEG"
      ∧ outputExt "jpeg" ≠ "." ++ strLower "jpeg" :=
  ⟨by decide, by decide, by decide⟩

/-- C8 (amended): the extension is determined by the upper-cased format
name: formats whose uppercase form is JPEG map to the jpg extension, and
any other format string maps to a dot followed by its lowercase form. -/
theorem outputExt_spec (s : String) :
    outputExt s = if strUpper s = "JPEG" then ".jpg" else "." ++ strLower s := by
  show (if strUpper s = "JPEG" then ".jpg" else "." ++ strLower (strUpper s))
      = if strUpper s = "JPEG" then ".jpg" else "." ++ strLower s
  rw [strLower_strUpper]

/-- C9: on every mode that decoding a file of the supported formats can
produce, ensure_rgb converts exactly the modes having an alpha channel, a
palette, or four-channel CMYK to RGB, and leaves every other mode
unchanged. -/
theorem ensure_rgb_normalizes (m : String) (hm : m ∈ openableModes) :
    ensure_rgb m = if m ∈ alphaModes ∨ m ∈ paletteModes ∨ m = "CMYK" then "RGB" else m := by
  fin_cases hm <;> decide

/-- C9 witness: the palette mode P is normalised to RGB. -/
theorem ensure_rgb_normalizes_witness :
    ("P" : String) ∈ openableModes ∧ ensure_rgb "P" = "RGB" :=
  ⟨by decide, (ensure_rgb_normalizes "P" (by decide)).trans (by decide)⟩

/-- C5: the timestamp resolver applies the fallback chain in order, first
success wins: the first DateTimeOriginal string item, when parseable after
the colon fix, is returned; when no such item exists or parsing fails
(the parse error being swallowed), the modification time is returned when
available, and the current wall-clock time otherwise.  The embedded
resolver is a total function, so it never raises. -/
theorem exif_datetime_chain (parse : String → Option DT) (meta : List (String × ExifVal))
    (mtime : Option DT) (now : DT) :
    (∀ s d, findDTO meta = some s → parse (isoFix s) = some d →
        exif_datetime parse meta mtime now = d)
    ∧ ((findDTO meta).bind (fun s => parse (isoFix s)) = none →
        (∀ m, mtime = some m → exif_datetime parse meta mtime now = m)
          ∧ (mtime = none → exif_datetime parse meta mtime now = now)) := by
  constructor
  · intro s d hs hd
    simp [exif_datetime, hs, hd]
  · intro hnone
    cases hfd : findDTO meta with
    | some s =>
      rw [hfd] at hnone
      simp only [Option.some_bind] at hnone
      constructor
      · intro m hm
        simp [exif_datetime, hfd, hnone, hm]
      · intro hm
        simp [exif_datetime, hfd, hnone, hm]
    | none =>
      constructor
      · intro m hm
        simp [exif_datetime, hfd, hm]
      · intro hm
        simp [exif_datetime, hfd, hm]

/-- C5 witness: a parseable DateTimeOriginal entry wins over both fallbacks,
and the colon-separated EXIF date is handed to the parser in ISO form. -/
theorem exif_datetime_chain_witness :
    exif_datetime
        (fun s => if s = "2024-01-15 10:30:00" then some ⟨2024, 1, 15⟩ else none)
        [("DateTimeOriginal", ExifVal.str "2024:01:15 10:30:00")] none ⟨2000, 1, 1⟩
      = ⟨2024, 1, 15⟩ :=
  (exif_datetime_chain _ _ _ _).1 "2024:01:15 10:30:00" ⟨2024, 1, 15⟩ (by decide)
    (by decide)

/-- C4: the name builder is a total function of its inputs (hence
deterministic and never raising) and always returns a non-empty string;
whenever rendering the user template fails or yields the empty string, the
result is the fallback name: folder, day key and three-digit zero-padded
counter joined by underscores. -/
theorem build_base_name_spec (render : RenderFn) (config : PhotoConfig)
    (stem parent : String) (counters : String → Nat) (dt : DT) :
    (_build_base_name render config stem parent counters dt).1 ≠ ""
    ∧ ((render config.rename_pattern
            ⟨parent, strftime8 dt, counters (strftime8 dt) + 1, stem⟩ = none
          ∨ render config.rename_pattern
            ⟨parent, strftime8 dt, counters (strftime8 dt) + 1, stem⟩ = some "") →
        (_build_base_name render config stem parent counters dt).1
          = fallbackName parent (strftime8 dt) (counters (strftime8 dt) + 1)) := by
  simp only [_build_base_name, eq_self_iff_true, if_true]
  cases hr : render config.rename_pattern
      ⟨parent, strftime8 dt, counters (strftime8 dt) + 1, stem⟩ with
  | none =>
    exact ⟨fallbackName_ne_empty _ _ _, fun _ => rfl⟩
  | some b =>
    by_cases hb : b = ""
    · subst hb
      exact ⟨by simp [fallbackName_ne_empty], fun _ => by simp⟩
    · refine ⟨by simp [hb], fun hor => ?_⟩
      rcases hor with h | h
      · exact absurd h (by simp)
      · simp only [Option.some.injEq] at h
        exact absurd h hb

/-- C4 witness: with a renderer that always fails, the builder returns the
fallback name for a concrete date and counter state. -/
theorem build_base_name_spec_witness :
    (_build_base_name (fun _ _ => none) sampleConfig "img" "photos" (fun _ => 0)
        ⟨2024, 1, 15⟩).1 = fallbackName "photos" (strftime8 ⟨2024, 1, 15⟩) 1 :=
  (build_base_name_spec (fun _ _ => none) sampleConfig "img" "photos" (fun _ => 0)
    ⟨2024, 1, 15⟩).2 (Or.inl rfl)

/-- C1: process_images returns the number of files attempted, failures
included; the progress callback is invoked exactly once per file with the
one-based processed count so far and the constant total; and an empty
file list returns zero immediately, with no counters created, no progress
reported, nothing logged and the destination untouched. -/
theorem process_images_count_progress (render : RenderFn) (parse : String → Option DT)
    (config : PhotoConfig) (files : List SrcFile) (dest0 : List String) (now : DT) :
    (process_images render parse config files dest0 now).count = files.length
    ∧ (process_images render parse config files dest0 now).progress
        = (List.range files.length).map (fun i => (i + 1, files.length))
    ∧ (files = [] →
        process_images render parse config files dest0 now = ⟨0, [], [], [], none, dest0⟩) := by
  by_cases h : files.length = 0
  · have hf : files = [] := List.length_eq_zero.mp h
    subst hf
    refine ⟨?_, ?_, fun _ => ?_⟩ <;> simp [process_images]
  · refine ⟨?_, ?_, fun hf => absurd (by rw [hf]; rfl : files.length = 0) h⟩
    · simp only [process_images, if_neg h]
      rw [processLoop_count]
      omega
    · simp only [process_images, if_neg h]
      rw [processLoop_progress]
      apply List.map_congr_left
      intro a _
      simp

/-- C1 witness: the empty batch returns zero with no counters, no progress
and no logs. -/
theorem process_images_count_progress_witness :
    process_images (fun _ _ => none) (fun _ => none) sampleConfig [] [] ⟨2024, 1, 15⟩
      = ⟨0, [], [], [], none, []⟩ :=
  (process_images_count_progress (fun _ _ => none) (fun _ => none) sampleConfig [] []
    ⟨2024, 1, 15⟩).2.2 rfl

/-- C2: every per-file failure, wherever it arises inside the per-file
pipeline, is converted to exactly one log line built from the source path
and the error message, in file order, and never aborts the batch: the
run still counts every file.  The embedded per-file step is a total
function, so nothing raised inside the pipeline escapes to batch level. -/
theorem process_images_failure_isolation (render : RenderFn) (parse : String → Option DT)
    (config : PhotoConfig) (files : List SrcFile) (dest0 : List String) (now : DT) :
    (process_images render parse config files dest0 now).logs = files.filterMap fileLog
    ∧ (process_images render parse config files dest0 now).count = files.length := by
  by_cases h : files.length = 0
  · have hf : files = [] := List.length_eq_zero.mp h
    subst hf
    constructor <;> simp [process_images]
  · constructor
    · simp only [process_images, if_neg h]
      rw [processLoop_logs]
    · simp only [process_images, if_neg h]
      rw [processLoop_count]
      omega

/-- C3: within one batch run, started with fresh counters, the counter
values the name builder produces for the files resolved to any one day key
form exactly the sequence 1, 2, 3, ... in processing order. -/
theorem process_images_same_day_counters (render : RenderFn) (parse : String → Option DT)
    (config : PhotoConfig) (files : List SrcFile) (dest0 : List String) (now : DT)
    (d : String) :
    (((process_images render parse config files dest0 now).trace.filter
          (fun p => p.1 = d)).map Prod.snd)
      = List.range' 1
          ((((process_images render parse config files dest0 now).trace.filter
            (fun p => p.1 = d)).map Prod.snd).length) := by
  by_cases h : files.length = 0
  · have hf : files = [] := List.length_eq_zero.mp h
    subst hf
    simp [process_images, List.range']
  · simp only [process_images, if_neg h]
    rcases processLoop_trace_day render parse config config.source_dir_name
        (outputExt config.output_format) now files.length d files (fun _ => 0) dest0 0
      with ⟨n, hn⟩
    simp only [Nat.zero_add] at hn
    rw [hn, List.length_range']

/-- C10: a file whose open or orientation-correction step raises consumes
no day counter and creates no output file: the loop on such a file
continues on the remaining files from the very same counters and
directory state, while the processed count still advances, one progress
entry is still recorded, and the failure is logged. -/
theorem preNameError_step (render : RenderFn) (parse : String → Option DT)
    (config : PhotoConfig) (parentName ext : String) (now : DT) (total : Nat)
    (f : SrcFile) (rest : List SrcFile) (counters : String → Nat) (dest : List String)
    (processed : Nat) (e : String) (h : f.preNameError = some e) :
    processLoop render parse config parentName ext now total (f :: rest) counters dest
        processed
      = ⟨(processLoop render parse config parentName ext now total rest counters dest
            (processed + 1)).count,
          (processed + 1, total)
            :: (processLoop render parse config parentName ext now total rest counters dest
              (processed + 1)).progress,
          errLog f.path e
            :: (processLoop render parse config parentName ext now total rest counters dest
              (processed + 1)).logs,
          (processLoop render parse config parentName ext now total rest counters dest
            (processed + 1)).trace,
          (processLoop render parse config parentName ext now total rest counters dest
            (processed + 1)).counters,
          (processLoop render parse config parentName ext now total rest counters dest
            (processed + 1)).dest⟩ := by
  simp [processLoop, processOne, h, consOpt]

/-- C10 witness: a batch consisting of one corrupt file reports one
processed file and one progress invocation, logs the failure, and leaves
the counter of the file's day at zero. -/
theorem preNameError_step_witness :
    (processLoop (fun _ _ => none) (fun _ => none) sampleConfig "photos" ".jpg"
        ⟨2024, 1, 15⟩ 1 [sampleBadFile] (fun _ => 0) [] 0).counters "20240115" = 0
    ∧ (processLoop (fun _ _ => none) (fun _ => none) sampleConfig "photos" ".jpg"
        ⟨2024, 1, 15⟩ 1 [sampleBadFile] (fun _ => 0) [] 0).progress = [(1, 1)]
    ∧ (processLoop (fun _ _ => none) (fun _ => none) sampleConfig "photos" ".jpg"
        ⟨2024, 1, 15⟩ 1 [sampleBadFile] (fun _ => 0) [] 0).logs
        = [errLog "photos/corrupt.jpg" "cannot identify image file"]
    ∧ (processLoop (fun _ _ => none) (fun _ => none) sampleConfig "photos" ".jpg"
        ⟨2024, 1, 15⟩ 1 [sampleBadFile] (fun _ => 0) [] 0).count = 1 := by
  have h := preNameError_step (fun _ _ => none) (fun _ => none) sampleConfig "photos" ".jpg"
    ⟨2024, 1, 15⟩ 1 sampleBadFile [] (fun _ => 0) [] 0 "cannot identify image file" rfl
  rw [h]
  exact ⟨rfl, rfl, rfl, rfl⟩
